import Mathlib

set_option maxRecDepth 40000

/-!
Verification of the Commit Selection Resolver of
`src/tools/commit_batch_big_picture.py`.

The Python code is shallowly embedded: Python strings become Lean `String`
(manipulated through executable `List Char` helpers mirroring Python's
`str.strip`, `str.split`, `re.sub(r"\s+", "", ·)`, `str.count`,
`str.split(sep, 1)`, slicing and `str.join`), the git subprocess calls
become an explicit `Oracle` record (one field per distinct git command the
resolver issues), Python exceptions become an `Except PyError` result,
where `PyError` distinguishes the tool's own `SelectionParseError` from an
uncaught `subprocess.CalledProcessError`, and `hashlib.sha1(...).hexdigest()`
is embedded as a full executable SHA-1 over the UTF-8 bytes of the input.
-/

/-! ## Python string primitives -/

/-- Python `str.strip()`: drop whitespace from both ends. -/
def pyStrip (s : String) : String :=
  (((s.data.dropWhile Char.isWhitespace).reverse.dropWhile Char.isWhitespace).reverse).asString

/-- Python `re.sub(r"\s+", "", s)`: delete every whitespace character. -/
def removeWs (s : String) : String :=
  (s.data.filter (fun c => ¬ c.isWhitespace)).asString

/-- Python `str.split(",")` on character lists: split on every separator,
keeping empty pieces (`"a,,b" ↦ ["a", "", "b"]`). -/
def splitOnCharList (sep : Char) : List Char → List (List Char)
  | [] => [[]]
  | c :: cs =>
    let rest := splitOnCharList sep cs
    if c = sep then
      [] :: rest
    else
      match rest with
      | [] => [[c]]
      | piece :: pieces => (c :: piece) :: pieces

/-- Python `s.split(sep)` for a one-character separator. -/
def pySplit (sep : Char) (s : String) : List String :=
  (splitOnCharList sep s.data).map List.asString

/-- Python `s.count(c)` for a one-character needle. -/
def pyCount (c : Char) (s : String) : Nat :=
  s.data.count c

/-- Python `s.split(sep, 1)` when `sep` occurs in `s`: split at the first
occurrence of the separator. -/
def pySplitFirst (sep : Char) (s : String) : String × String :=
  ((s.data.takeWhile (fun c => c ≠ sep)).asString,
   ((s.data.dropWhile (fun c => c ≠ sep)).drop 1).asString)

/-- Python `s[:n]` slicing. -/
def pyTake (n : Nat) (s : String) : String :=
  (s.data.take n).asString

/-- Python `sep.join(parts)`. -/
def pyJoin (sep : String) : List String → String
  | [] => ""
  | [part] => part
  | part :: rest => part ++ sep ++ pyJoin sep rest

/-! ## SHA-1 (`hashlib.sha1(...).hexdigest()`)

Message bytes, 32-bit words and the running digest are `Nat`s reduced
modulo `2 ^ 32` wherever the Python/C implementation wraps. -/

/-- UTF-8 encoding of one character (`str.encode("utf-8")`). -/
def utf8Bytes (c : Char) : List Nat :=
  let n := c.toNat
  if n < 0x80 then [n]
  else if n < 0x800 then [0xC0 ||| (n >>> 6), 0x80 ||| (n &&& 0x3F)]
  else if n < 0x10000 then
    [0xE0 ||| (n >>> 12), 0x80 ||| ((n >>> 6) &&& 0x3F), 0x80 ||| (n &&& 0x3F)]
  else
    [0xF0 ||| (n >>> 18), 0x80 ||| ((n >>> 12) &&& 0x3F),
     0x80 ||| ((n >>> 6) &&& 0x3F), 0x80 ||| (n &&& 0x3F)]

/-- UTF-8 encoding of a string as a byte list. -/
def strUtf8 (s : String) : List Nat :=
  (s.data.map utf8Bytes).flatten

/-- SHA-1 padding: append `0x80`, zero bytes up to 56 mod 64, and the
message bit length as 8 big-endian bytes. -/
def sha1Pad (msg : List Nat) : List Nat :=
  let bitLen := msg.length * 8
  let padZeros := (119 - msg.length % 64) % 64
  msg ++ [0x80] ++ List.replicate padZeros 0 ++
    (List.range 8).map (fun i => (bitLen >>> ((7 - i) * 8)) &&& 0xFF)

/-- Split a byte list into 64-byte chunks (fuelled to stay structural). -/
def chunks64 : Nat → List Nat → List (List Nat)
  | 0, _ => []
  | _ + 1, [] => []
  | fuel + 1, l => l.take 64 :: chunks64 fuel (l.drop 64)

/-- Rotate a 32-bit word left by `k`. -/
def rotl (k n : Nat) : Nat :=
  ((n <<< k) ||| (n >>> (32 - k))) % 2 ^ 32

/-- The 16 big-endian 32-bit words of a 64-byte chunk. -/
def sha1Words (chunk : List Nat) : List Nat :=
  (List.range 16).map (fun i =>
    chunk.getD (4 * i) 0 * 2 ^ 24 + chunk.getD (4 * i + 1) 0 * 2 ^ 16 +
    chunk.getD (4 * i + 2) 0 * 2 ^ 8 + chunk.getD (4 * i + 3) 0)

/-- Extend 16 words to the 80-word message schedule. -/
def sha1Extend (w16 : List Nat) : List Nat :=
  (List.range 64).foldl
    (fun w _ =>
      let i := w.length
      w ++ [rotl 1 (w.getD (i - 3) 0 ^^^ w.getD (i - 8) 0 ^^^
                    w.getD (i - 14) 0 ^^^ w.getD (i - 16) 0)])
    w16

/-- The SHA-1 round function. -/
def sha1F (i b c d : Nat) : Nat :=
  if i < 20 then (b &&& c) ||| ((b ^^^ 0xFFFFFFFF) &&& d)
  else if i < 40 then b ^^^ c ^^^ d
  else if i < 60 then (b &&& c) ||| (b &&& d) ||| (c &&& d)
  else b ^^^ c ^^^ d

/-- The SHA-1 round constants. -/
def sha1K (i : Nat) : Nat :=
  if i < 20 then 0x5A827999
  else if i < 40 then 0x6ED9EBA1
  else if i < 60 then 0x8F1BBCDC
  else 0xCA62C1D6

/-- Compress one 64-byte chunk into the running digest. -/
def sha1Chunk (h : Nat × Nat × Nat × Nat × Nat) (chunk : List Nat) :
    Nat × Nat × Nat × Nat × Nat :=
  let w := sha1Extend (sha1Words chunk)
  let (h0, h1, h2, h3, h4) := h
  let st := (List.range 80).foldl
    (fun st i =>
      let (a, b, c, d, e) := st
      let temp := (rotl 5 a + sha1F i b c d + e + sha1K i + w.getD i 0) % 2 ^ 32
      (temp, a, rotl 30 b, c, d))
    (h0, h1, h2, h3, h4)
  ((h0 + st.1) % 2 ^ 32, (h1 + st.2.1) % 2 ^ 32, (h2 + st.2.2.1) % 2 ^ 32,
   (h3 + st.2.2.2.1) % 2 ^ 32, (h4 + st.2.2.2.2) % 2 ^ 32)

/-- One lowercase hex digit. -/
def hexDigit (n : Nat) : Char :=
  if n < 10 then Char.ofNat (48 + n) else Char.ofNat (87 + n)

/-- Eight lowercase hex digits of a 32-bit word, most significant first. -/
def toHex32 (n : Nat) : List Char :=
  (List.range 8).map (fun i => hexDigit ((n >>> ((7 - i) * 4)) &&& 0xF))

/-- Embedding of `hashlib.sha1(s.encode("utf-8")).hexdigest()`. -/
def sha1Hexdigest (s : String) : String :=
  let msg := sha1Pad (strUtf8 s)
  let h := (chunks64 msg.length msg).foldl sha1Chunk
    (0x67452301, 0xEFCDAB89, 0x98BADCFE, 0x10325476, 0xC3D2E1F0)
  (toHex32 h.1 ++ toHex32 h.2.1 ++ toHex32 h.2.2.1 ++
   toHex32 h.2.2.2.1 ++ toHex32 h.2.2.2.2).asString

/-! ## The embedded resolver -/

/-- The git subprocess interface the resolver uses, one field per command:
`git rev-parse --verify <token>^{commit}` (`none` models a nonzero exit,
`some id` the stripped stdout), `git merge-base --is-ancestor a b`
(`true` models exit status 0), and `git rev-list --reverse <start>^..<end>`
(`none` models a nonzero exit — which git produces e.g. when `start` is a
root commit, so that `start^` is not a valid revision — and `some lines`
the stripped stdout split into lines). -/
structure Oracle where
  revParseVerify : String → Option String
  mergeBaseIsAncestor : String → String → Bool
  revListReverse : String → String → Option (List String)

/-- The errors that can escape `parse_commit_selection`: the tool's own
`SelectionParseError` (carrying its message) or an uncaught
`subprocess.CalledProcessError` raised by `run_command` with `check=True`. -/
inductive PyError where
  | selectionParseError (msg : String)
  | calledProcessError
deriving DecidableEq

instance {ε α : Type} [DecidableEq ε] [DecidableEq α] : DecidableEq (Except ε α) := fun x y =>
  match x, y with
  | .ok a, .ok b =>
    if h : a = b then .isTrue (by rw [h]) else .isFalse (by simp [h])
  | .error a, .error b =>
    if h : a = b then .isTrue (by rw [h]) else .isFalse (by simp [h])
  | .ok _, .error _ => .isFalse (by simp)
  | .error _, .ok _ => .isFalse (by simp)

/-- Message of the `SelectionParseError` raised for an empty token. -/
def emptyTokenMsg (token original : String) : String :=
  "Invalid commit selection token '" ++ token ++ "' in '" ++ original ++ "'. " ++
    "Commit hashes cannot be empty."

/-- Message of the `SelectionParseError` raised when `git rev-parse` fails. -/
def unknownTokenMsg (token original : String) : String :=
  "Invalid commit selection token '" ++ token ++ "' in '" ++ original ++ "': " ++
    "Commit hash not found."

/-- Message of the `SelectionParseError` raised for an empty input. -/
def emptyInputMsg : String :=
  "Invalid commit selection: empty input. Expected format like 'abc123,def456-789abc'."

/-- Message of the `SelectionParseError` raised for an empty segment. -/
def emptySegmentMsg (segment original : String) : String :=
  "Invalid commit selection segment '" ++ segment ++ "' in '" ++ original ++ "'. " ++
    "Expected format like 'abc123,def456-789abc'."

/-- Message of the `SelectionParseError` raised for a segment with more than
one dash. -/
def malformedRangeMsg (segment original : String) : String :=
  "Invalid commit range '" ++ segment ++ "' in '" ++ original ++ "'. " ++
    "Expected format like 'abc123-789abc'."

/-- Message of the `SelectionParseError` raised when the range start is not
an ancestor of the range end. -/
def notAncestorMsg (segment original : String) : String :=
  "Invalid commit range '" ++ segment ++ "' in '" ++ original ++ "': " ++
    "start must be an ancestor of end."

/-- Message of the `SelectionParseError` raised when `git rev-list` reports
no commits. -/
def emptyRangeMsg (segment original : String) : String :=
  "Invalid commit range '" ++ segment ++ "' in '" ++ original ++ "': no commits found."

/-- Message of the `SelectionParseError` raised when nothing was selected. -/
def noCommitsParsedMsg (original : String) : String :=
  "Invalid commit selection '" ++ original ++ "': no commits parsed."

/-- Embedding of `resolve_commit` (src lines 50–66): strip the token, refuse
an empty result, then `git rev-parse --verify`; a failed subprocess call is
converted into a `SelectionParseError`. -/
def resolve_commit (o : Oracle) (token original : String) : Except PyError String :=
  let cleaned := pyStrip token
  if cleaned = "" then
    .error (.selectionParseError (emptyTokenMsg token original))
  else
    match o.revParseVerify cleaned with
    | some resolved => .ok resolved
    | none => .error (.selectionParseError (unknownTokenMsg token original))

/-- The inner `for commit in commits:` loop of the range branch (src lines
122–125): append each commit not yet seen, preserving order. The Python code
keeps a `seen` set alongside the `selected` list; since `seen` always equals
the set of elements of `selected`, membership in the list is the same test. -/
def appendNewCommits (selected : List String) (commits : List String) : List String :=
  commits.foldl (fun acc commit => if commit ∈ acc then acc else acc ++ [commit]) selected

/-- Embedding of one iteration of the `for segment in segments:` loop of
`parse_commit_selection` (src lines 89–130), transforming the accumulated
`selected` list or raising. -/
def processSegment (o : Oracle) (original : String) (selected : List String)
    (segment : String) : Except PyError (List String) :=
  let cleaned := removeWs segment
  if cleaned = "" then
    .error (.selectionParseError (emptySegmentMsg segment original))
  else if '-' ∈ cleaned.data then
    if pyCount '-' cleaned ≠ 1 then
      .error (.selectionParseError (malformedRangeMsg segment original))
    else
      let startEnd := pySplitFirst '-' cleaned
      match resolve_commit o startEnd.1 original with
      | .error e => .error e
      | .ok start =>
        match resolve_commit o startEnd.2 original with
        | .error e => .error e
        | .ok stop =>
          if o.mergeBaseIsAncestor start stop then
            match o.revListReverse start stop with
            | none => .error .calledProcessError
            | some commitsRaw =>
              let commits := commitsRaw.filter (fun line => line ≠ "")
              if commits = [] then
                .error (.selectionParseError (emptyRangeMsg segment original))
              else
                .ok (appendNewCommits selected commits)
          else
            .error (.selectionParseError (notAncestorMsg segment original))
  else
    match resolve_commit o cleaned original with
    | .error e => .error e
    | .ok commit =>
      .ok (if commit ∈ selected then selected else selected ++ [commit])

/-- The `for segment in segments:` loop of `parse_commit_selection`. -/
def parseLoop (o : Oracle) (original : String) (selected : List String) :
    List String → Except PyError (List String)
  | [] => .ok selected
  | segment :: rest =>
    match processSegment o original selected segment with
    | .error e => .error e
    | .ok selected' => parseLoop o original selected' rest

/-- Embedding of `parse_commit_selection` (src lines 69–137): trim the input,
split on commas, strip each segment, refuse empty segments, run the
resolution loop, and refuse an empty final selection. -/
def parse_commit_selection (o : Oracle) (selection : String) :
    Except PyError (List String) :=
  let original := selection
  let trimmed := pyStrip selection
  if trimmed = "" then
    .error (.selectionParseError emptyInputMsg)
  else
    let segments := (pySplit ',' trimmed).map pyStrip
    if segments.any (fun segment => segment = "") then
      .error (.selectionParseError (emptySegmentMsg "" original))
    else
      match parseLoop o original [] segments with
      | .error e => .error e
      | .ok selected =>
        if selected = [] then
          .error (.selectionParseError (noCommitsParsedMsg original))
        else
          .ok selected

/-! ## Canonicalization and tagging -/

/-- Embedding of `format_commit_selection` (src lines 140–142): comma-join of
8-character prefixes. -/
def format_commit_selection (commits : List String) : String :=
  pyJoin "," (commits.map (pyTake 8))

/-- Embedding of `build_selection_tag` (src lines 145–154). -/
def build_selection_tag (selected_commits : List String)
    (selection_canonical : String) : String :=
  let selection_hash := pyTake 8 (sha1Hexdigest selection_canonical)
  if selected_commits = [] then
    "0commits-" ++ selection_hash
  else
    pyTake 8 (selected_commits.headD "") ++ "-" ++
      pyTake 8 (selected_commits.getLastD "") ++ "-" ++
      toString selected_commits.length ++ "commits-" ++
      selection_hash

/-- The full-identifier canonical string `main` computes (src line 645:
`selection_canonical_full = ",".join(selected_commits)`). -/
def main_selection_canonical_full (selected_commits : List String) : String :=
  pyJoin "," selected_commits

/-- The display canonical string `main` computes (src line 646:
`selection_canonical = format_commit_selection(selected_commits)`). -/
def main_selection_canonical (selected_commits : List String) : String :=
  format_commit_selection selected_commits

/-- The tag `main` computes (src line 647:
`selection_tag = build_selection_tag(selected_commits, selection_canonical_full)`). -/
def main_selection_tag (selected_commits : List String) : String :=
  build_selection_tag selected_commits (main_selection_canonical_full selected_commits)

/-! ## Specification-side decomposition of the resolver

`segmentStream` returns the list of identifiers one segment contributes to
the left-to-right scan before deduplication (oldest-first inside a range);
`selectionStreams` collects those per-segment lists in input order;
`dedupKeepFirst` keeps the first occurrence of every element (Mathlib's
`List.dedup` keeps last occurrences, so it is applied to the reversal). -/

/-- The identifiers one segment contributes before dedup: a single segment
contributes its one resolved identifier, a range segment its oldest-first
enumerated path; guards and failures are those of the loop body. -/
def segmentStream (o : Oracle) (original segment : String) :
    Except PyError (List String) :=
  let cleaned := removeWs segment
  if cleaned = "" then
    .error (.selectionParseError (emptySegmentMsg segment original))
  else if '-' ∈ cleaned.data then
    if pyCount '-' cleaned ≠ 1 then
      .error (.selectionParseError (malformedRangeMsg segment original))
    else
      let startEnd := pySplitFirst '-' cleaned
      match resolve_commit o startEnd.1 original with
      | .error e => .error e
      | .ok start =>
        match resolve_commit o startEnd.2 original with
        | .error e => .error e
        | .ok stop =>
          if o.mergeBaseIsAncestor start stop then
            match o.revListReverse start stop with
            | none => .error .calledProcessError
            | some commitsRaw =>
              let commits := commitsRaw.filter (fun line => line ≠ "")
              if commits = [] then
                .error (.selectionParseError (emptyRangeMsg segment original))
              else
                .ok commits
          else
            .error (.selectionParseError (notAncestorMsg segment original))
  else
    match resolve_commit o cleaned original with
    | .error e => .error e
    | .ok commit => .ok [commit]

/-- Collect the per-segment streams left to right, stopping at the first
failing segment. -/
def collectStreams (o : Oracle) (original : String) :
    List String → Except PyError (List (List String))
  | [] => .ok []
  | seg :: rest =>
    match segmentStream o original seg with
    | .error e => .error e
    | .ok cs =>
      match collectStreams o original rest with
      | .error e => .error e
      | .ok css => .ok (cs :: css)

/-- The per-segment identifier streams of a whole selection, in input
order, under the same input guards as `parse_commit_selection`. -/
def selectionStreams (o : Oracle) (selection : String) :
    Except PyError (List (List String)) :=
  let trimmed := pyStrip selection
  if trimmed = "" then
    .error (.selectionParseError emptyInputMsg)
  else
    let segments := (pySplit ',' trimmed).map pyStrip
    if segments.any (fun segment => segment = "") then
      .error (.selectionParseError (emptySegmentMsg "" selection))
    else
      collectStreams o selection segments

/-- Keep the first occurrence of every element, in first-occurrence order
(`List.dedup` keeps last occurrences, hence the two reversals). -/
def dedupKeepFirst (xs : List String) : List String :=
  (xs.reverse.dedup).reverse

/-! ## Concrete oracles -/

/-- The oracle of the spec's worked scenario: `deadbee` resolves to `D`,
`cafefee` to `C`, `babe000` to `B`, `C` is an ancestor of `B`, and the
oldest-first ancestry path from `C` to `B` is `[C, M1, M2, B]`. -/
def oracleScenario : Oracle where
  revParseVerify token :=
    if token = "deadbee" then some "D"
    else if token = "cafefee" then some "C"
    else if token = "babe000" then some "B"
    else none
  mergeBaseIsAncestor a b :=
    if a = "C" ∧ b = "B" then true else false
  revListReverse start stop :=
    if start = "C" ∧ stop = "B" then some ["C", "M1", "M2", "B"] else none

/-- Identifier of the root commit of the two-commit repository modelled by
`rootOracle`. -/
def rootCommitId : String := "1111111111111111111111111111111111111111"

/-- Identifier of the tip commit of the two-commit repository modelled by
`rootOracle`. -/
def tipCommitId : String := "2222222222222222222222222222222222222222"

/-- An oracle faithful to git on a two-commit repository whose history is
root → tip: `rev-parse` resolves the refs `root` and `tip`;
`merge-base --is-ancestor` reflects ancestor-or-self on the two commits
(exit 0 ↦ `true`); and `rev-list --reverse <start>^..<end>` exits nonzero
whenever `start` is the root commit, because the root has no parent and so
`<start>^` is not a valid revision (`none`), while from the tip
`tip^..tip` enumerates `[tip]`. -/
def rootOracle : Oracle where
  revParseVerify token :=
    if token = "root" then some rootCommitId
    else if token = "tip" then some tipCommitId
    else none
  mergeBaseIsAncestor a b :=
    if (a = rootCommitId ∧ (b = rootCommitId ∨ b = tipCommitId)) ∨
        (a = tipCommitId ∧ b = tipCommitId) then true else false
  revListReverse start stop :=
    if start = rootCommitId then none
    else if start = tipCommitId ∧ stop = tipCommitId then some [tipCommitId]
    else none


/-- A well-formed reference token, as a plain commit hash is: non-empty and
containing no whitespace, no dash and no comma. -/
def goodToken (t : String) : Prop :=
  t ≠ "" ∧ ∀ c ∈ t.data, ¬ c.isWhitespace ∧ c ≠ '-' ∧ c ≠ ','

instance (t : String) : Decidable (goodToken t) := by
  unfold goodToken; infer_instance

/-- An oracle on a history containing a commit `D` (named by the token
`deadbee`): the degenerate range from `D` to itself enumerates the
one-element path `[D]`. -/
def oracleSingleRange : Oracle where
  revParseVerify token := if token = "deadbee" then some "D" else none
  mergeBaseIsAncestor a b := if a = "D" ∧ b = "D" then true else false
  revListReverse start stop :=
    if start = "D" ∧ stop = "D" then some ["D"] else none

/-! ## Resolver lemmas -/

theorem mem_appendNewCommits {x : String} {sel cs : List String} :
    x ∈ appendNewCommits sel cs ↔ x ∈ sel ∨ x ∈ cs := by
  induction cs generalizing sel with
  | nil => simp [appendNewCommits]
  | cons c cs ih =>
    show x ∈ appendNewCommits (if c ∈ sel then sel else sel ++ [c]) cs ↔ _
    by_cases hc : c ∈ sel
    · rw [if_pos hc, ih]
      simp only [List.mem_cons]
      constructor
      · rintro (h | h)
        · exact Or.inl h
        · exact Or.inr (Or.inr h)
      · rintro (h | rfl | h)
        · exact Or.inl h
        · exact Or.inl hc
        · exact Or.inr h
    · rw [if_neg hc, ih]
      simp only [List.mem_append, List.mem_singleton, List.mem_cons]
      tauto

theorem nodup_appendNewCommits {sel cs : List String} (h : sel.Nodup) :
    (appendNewCommits sel cs).Nodup := by
  induction cs generalizing sel with
  | nil => exact h
  | cons c cs ih =>
    show (appendNewCommits (if c ∈ sel then sel else sel ++ [c]) cs).Nodup
    by_cases hc : c ∈ sel
    · rw [if_pos hc]; exact ih h
    · rw [if_neg hc]
      refine ih ?_
      simp [List.nodup_append, h, hc]

theorem appendNewCommits_append {sel cs ds : List String} :
    appendNewCommits sel (cs ++ ds) = appendNewCommits (appendNewCommits sel cs) ds := by
  simp [appendNewCommits, List.foldl_append]

theorem mem_dedupKeepFirst {x : String} {xs : List String} :
    x ∈ dedupKeepFirst xs ↔ x ∈ xs := by
  simp [dedupKeepFirst, List.mem_reverse, List.mem_dedup]

theorem appendNewCommits_nil_eq_dedupKeepFirst (cs : List String) :
    appendNewCommits [] cs = dedupKeepFirst cs := by
  induction cs using List.reverseRecOn with
  | nil => rfl
  | append_singleton xs c ih =>
    rw [appendNewCommits_append]
    show (if c ∈ appendNewCommits [] xs then appendNewCommits [] xs
          else appendNewCommits [] xs ++ [c]) = _
    rw [ih]
    by_cases hc : c ∈ xs
    · rw [if_pos (mem_dedupKeepFirst.mpr hc)]
      unfold dedupKeepFirst
      rw [List.reverse_append, List.reverse_singleton, List.singleton_append,
        List.dedup_cons_of_mem (List.mem_reverse.mpr hc)]
    · rw [if_neg (fun hmem => hc (mem_dedupKeepFirst.mp hmem))]
      unfold dedupKeepFirst
      rw [List.reverse_append, List.reverse_singleton, List.singleton_append,
        List.dedup_cons_of_not_mem (fun hmem => hc (List.mem_reverse.mp hmem)),
        List.reverse_cons]

theorem processSegment_eq_segmentStream (o : Oracle) (orig : String) (sel : List String)
    (seg : String) :
    processSegment o orig sel seg = (segmentStream o orig seg).map (appendNewCommits sel) := by
  unfold processSegment segmentStream
  by_cases h0 : removeWs seg = ""
  · simp [h0, Except.map]
  by_cases h1 : '-' ∈ (removeWs seg).data
  · by_cases h2 : pyCount '-' (removeWs seg) = 1
    · cases hr1 : resolve_commit o (pySplitFirst '-' (removeWs seg)).1 orig with
      | error e => simp [h0, h1, h2, hr1, Except.map]
      | ok start =>
        cases hr2 : resolve_commit o (pySplitFirst '-' (removeWs seg)).2 orig with
        | error e => simp [h0, h1, h2, hr1, hr2, Except.map]
        | ok stop =>
          by_cases ha : o.mergeBaseIsAncestor start stop
          · cases hrl : o.revListReverse start stop with
            | none => simp [h0, h1, h2, hr1, hr2, ha, hrl, Except.map]
            | some commitsRaw =>
              by_cases hc : commitsRaw.filter (fun line => line ≠ "") = []
              · simp only [h0, h1, h2, hr1, hr2, ha, hrl, Except.map]
                rw [if_pos hc, if_pos hc]
                simp
              · simp only [h0, h1, h2, hr1, hr2, ha, hrl, Except.map]
                rw [if_neg hc, if_neg hc]
                simp
          · simp [h0, h1, h2, hr1, hr2, ha, Except.map]
    · simp [h0, h1, h2, Except.map]
  · cases hr : resolve_commit o (removeWs seg) orig with
    | error e => simp [h0, h1, hr, Except.map]
    | ok commit => simp [h0, h1, hr, Except.map, appendNewCommits]


theorem parseLoop_eq_streams (o : Oracle) (orig : String) (sel : List String)
    (segs : List String) :
    parseLoop o orig sel segs =
      (collectStreams o orig segs).map
        (fun streams => appendNewCommits sel streams.flatten) := by
  induction segs generalizing sel with
  | nil => simp [parseLoop, collectStreams, Except.map, appendNewCommits]
  | cons seg rest ih =>
    rw [parseLoop, processSegment_eq_segmentStream, collectStreams]
    cases hseg : segmentStream o orig seg with
    | error e => simp [Except.map]
    | ok cs =>
      show parseLoop o orig (appendNewCommits sel cs) rest =
        Except.map (fun streams => appendNewCommits sel streams.flatten)
          (match collectStreams o orig rest with
            | Except.error e => Except.error e
            | Except.ok css => Except.ok (cs :: css))
      rw [ih]
      cases hrest : collectStreams o orig rest with
      | error e => simp [Except.map]
      | ok css => simp [Except.map, appendNewCommits_append]

/-! ## C1 -/

/-- C1: for every valid non-empty selection string, `parse_commit_selection`
returns a list with no duplicate identifiers, and the order of the list is
the first-occurrence order of the left-to-right scan of the segments
(`selectionStreams`, oldest-to-newest inside a range), i.e. the list is the
first-occurrence deduplication of the concatenated per-segment streams. -/
theorem parse_commit_selection_nodup_first_occurrence (o : Oracle) (s : String)
    (l : List String) (h : parse_commit_selection o s = .ok l) :
    l.Nodup ∧ ∃ streams, selectionStreams o s = .ok streams ∧
      l = dedupKeepFirst streams.flatten := by
  unfold parse_commit_selection at h
  by_cases h1 : pyStrip s = ""
  · simp [h1] at h
  by_cases h2 : ((pySplit ',' (pyStrip s)).map pyStrip).any (fun segment => segment = "") = true
  · simp only [if_neg h1, if_pos h2] at h
    simp at h
  simp only [if_neg h1, if_neg h2] at h
  rw [parseLoop_eq_streams] at h
  cases hcs : collectStreams o s ((pySplit ',' (pyStrip s)).map pyStrip) with
  | error e => rw [hcs] at h; simp [Except.map] at h
  | ok streams =>
    rw [hcs] at h
    simp only [Except.map] at h
    by_cases hemp : appendNewCommits [] streams.flatten = []
    · rw [if_pos hemp] at h; simp at h
    · rw [if_neg hemp] at h
      have hl : l = appendNewCommits [] streams.flatten := by
        cases h; rfl
      refine ⟨?_, streams, ?_, ?_⟩
      · rw [hl]; exact nodup_appendNewCommits List.nodup_nil
      · unfold selectionStreams
        rw [if_neg h1, if_neg h2]
        exact hcs
      · rw [hl, appendNewCommits_nil_eq_dedupKeepFirst]

/-- Witness for the C1 theorem at the worked scenario
`"deadbee,cafefee-babe000"`. -/
theorem parse_commit_selection_nodup_first_occurrence_witness :
    (["D", "C", "M1", "M2", "B"] : List String).Nodup ∧
      ∃ streams, selectionStreams oracleScenario "deadbee,cafefee-babe000" = .ok streams ∧
        ["D", "C", "M1", "M2", "B"] = dedupKeepFirst streams.flatten :=
  parse_commit_selection_nodup_first_occurrence oracleScenario "deadbee,cafefee-babe000"
    ["D", "C", "M1", "M2", "B"] (by decide)

/-! ## C5, C2, C4 -/

/-- C5: for the selection string "deadbee,cafefee-babe000", where the oracle
resolves `deadbee` to `D`, `cafefee` to `C`, `babe000` to `B`, `C` is an
ancestor of `B` and the oldest-first ancestry path from `C` to `B` is
`[C, M1, M2, B]`, `parse_commit_selection` returns exactly
`[D, C, M1, M2, B]`. -/
theorem scenario_selection_resolves :
    parse_commit_selection oracleScenario "deadbee,cafefee-babe000" =
      .ok ["D", "C", "M1", "M2", "B"] := by decide

/-- C2, behaviour of the code at the failing input: in the two-commit
repository modelled by `rootOracle`, `root` and `tip` both resolve and
`root` is an ancestor of `tip`, yet the range "root-tip" does not expand to
the closed-closed path `[rootCommitId, tipCommitId]`: the parent-exclusive
enumeration `git rev-list --reverse root^..tip` fails because the root has
no parent, the start identifier is never re-included, and the subprocess
error escapes `parse_commit_selection` uncaught. -/
theorem root_range_start_not_included :
    rootOracle.revParseVerify "root" = some rootCommitId ∧
    rootOracle.revParseVerify "tip" = some tipCommitId ∧
    rootOracle.mergeBaseIsAncestor rootCommitId tipCommitId = true ∧
    parse_commit_selection rootOracle "root-tip" = .error .calledProcessError := by
  decide

/-- C4, behaviour of the code at the failing input: the oracle error raised
by `git rev-list` while resolving the range "root-tip" (whose start is a
root commit) is not surfaced as a `SelectionParseError` of any of the five
failure kinds: it escapes `parse_commit_selection` as an uncaught
`CalledProcessError`, aborting mid-selection after the first segment. -/
theorem rev_list_error_escapes_uncaught :
    parse_commit_selection rootOracle "tip,root-tip" = .error .calledProcessError ∧
    ∀ msg, PyError.calledProcessError ≠ PyError.selectionParseError msg :=
  ⟨by decide, fun _ h => PyError.noConfusion h⟩

/-! ## Well-formed tokens and range segments -/

theorem asString_data (s : String) : s.data.asString = s := rfl

theorem data_asString (l : List Char) : (List.asString l).data = l := rfl

theorem dropWhile_eq_self_of_none {p : Char → Bool} {l : List Char}
    (h : ∀ c ∈ l, ¬ p c) : l.dropWhile p = l := by
  cases l with
  | nil => rfl
  | cons c cs =>
    rw [List.dropWhile_cons]
    simp [h c (List.mem_cons_self c cs)]

theorem pyStrip_eq_self {s : String} (h : ∀ c ∈ s.data, ¬ c.isWhitespace) :
    pyStrip s = s := by
  unfold pyStrip
  have h1 : s.data.dropWhile Char.isWhitespace = s.data :=
    dropWhile_eq_self_of_none h
  rw [h1]
  have h2 : s.data.reverse.dropWhile Char.isWhitespace = s.data.reverse :=
    dropWhile_eq_self_of_none (fun c hc => h c (List.mem_reverse.mp hc))
  rw [h2, List.reverse_reverse, asString_data]

theorem removeWs_eq_self {s : String} (h : ∀ c ∈ s.data, ¬ c.isWhitespace) :
    removeWs s = s := by
  unfold removeWs
  rw [List.filter_eq_self.mpr (by simpa using h), asString_data]

theorem splitOnCharList_of_no_sep {sep : Char} {l : List Char} (h : sep ∉ l) :
    splitOnCharList sep l = [l] := by
  induction l with
  | nil => rfl
  | cons c cs ih =>
    rw [splitOnCharList]
    have hc : ¬ c = sep := fun hc => h (hc ▸ List.mem_cons_self c cs)
    rw [if_neg hc, ih (fun hm => h (List.mem_cons_of_mem c hm))]

theorem pySplit_of_no_sep {sep : Char} {s : String} (h : sep ∉ s.data) :
    pySplit sep s = [s] := by
  unfold pySplit
  rw [splitOnCharList_of_no_sep h]
  simp [asString_data]

theorem takeWhile_append_cons {p : Char → Bool} {l1 l2 : List Char} {c : Char}
    (h : ∀ x ∈ l1, p x) (hc : ¬ p c) :
    (l1 ++ c :: l2).takeWhile p = l1 := by
  induction l1 with
  | nil => simp [List.takeWhile_cons, hc]
  | cons a l1 ih =>
    rw [List.cons_append, List.takeWhile_cons]
    simp only [h a (List.mem_cons_self a l1), if_true]
    rw [ih (fun x hx => h x (List.mem_cons_of_mem a hx))]

theorem dropWhile_append_cons {p : Char → Bool} {l1 l2 : List Char} {c : Char}
    (h : ∀ x ∈ l1, p x) (hc : ¬ p c) :
    (l1 ++ c :: l2).dropWhile p = c :: l2 := by
  induction l1 with
  | nil => simp [List.dropWhile_cons, hc]
  | cons a l1 ih =>
    rw [List.cons_append, List.dropWhile_cons]
    simp only [h a (List.mem_cons_self a l1), if_true]
    exact ih (fun x hx => h x (List.mem_cons_of_mem a hx))

/-- Data of the concatenated range segment. -/
theorem range_segment_data (st en : String) :
    (st ++ "-" ++ en).data = st.data ++ '-' :: en.data := by
  simp [String.data_append]

theorem goodToken_pyStrip {t : String} (h : goodToken t) : pyStrip t = t :=
  pyStrip_eq_self (fun c hc => (h.2 c hc).1)

theorem goodToken_removeWs {t : String} (h : goodToken t) : removeWs t = t :=
  removeWs_eq_self (fun c hc => (h.2 c hc).1)

theorem range_segment_removeWs {st en : String} (hst : goodToken st)
    (hen : goodToken en) : removeWs (st ++ "-" ++ en) = st ++ "-" ++ en := by
  refine removeWs_eq_self ?_
  rw [range_segment_data]
  intro c hc
  rcases List.mem_append.mp hc with h | h
  · exact (hst.2 c h).1
  · rcases List.mem_cons.mp h with rfl | h
    · decide
    · exact (hen.2 c h).1

theorem range_segment_pyStrip {st en : String} (hst : goodToken st)
    (hen : goodToken en) : pyStrip (st ++ "-" ++ en) = st ++ "-" ++ en := by
  refine pyStrip_eq_self ?_
  rw [range_segment_data]
  intro c hc
  rcases List.mem_append.mp hc with h | h
  · exact (hst.2 c h).1
  · rcases List.mem_cons.mp h with rfl | h
    · decide
    · exact (hen.2 c h).1

theorem range_segment_ne_empty (st en : String) : st ++ "-" ++ en ≠ "" := by
  intro h
  have : (st ++ "-" ++ en).data = [] := by rw [h]
  rw [range_segment_data] at this
  exact absurd (List.append_eq_nil.mp this).2 (by simp)

theorem range_segment_dash_mem (st en : String) : '-' ∈ (st ++ "-" ++ en).data := by
  rw [range_segment_data]
  exact List.mem_append.mpr (Or.inr (List.mem_cons_self _ _))

theorem range_segment_dash_count {st en : String} (hst : goodToken st)
    (hen : goodToken en) : pyCount '-' (st ++ "-" ++ en) = 1 := by
  unfold pyCount
  rw [range_segment_data, List.count_append, List.count_cons]
  have h1 : st.data.count '-' = 0 :=
    List.count_eq_zero.mpr (fun hm => (hst.2 '-' hm).2.1 rfl)
  have h2 : en.data.count '-' = 0 :=
    List.count_eq_zero.mpr (fun hm => (hen.2 '-' hm).2.1 rfl)
  simp [h1, h2]

theorem range_segment_splitFirst {st en : String} (hst : goodToken st) :
    pySplitFirst '-' (st ++ "-" ++ en) = (st, en) := by
  unfold pySplitFirst
  rw [range_segment_data]
  have hall : ∀ x ∈ st.data, (fun c => decide (c ≠ '-')) x := by
    intro x hx
    simpa using (hst.2 x hx).2.1
  have hc : ¬ (fun c => decide (c ≠ '-')) '-' = true := by simp
  rw [takeWhile_append_cons hall hc, dropWhile_append_cons hall hc]
  simp [asString_data]

theorem range_segment_no_comma {st en : String} (hst : goodToken st)
    (hen : goodToken en) : ',' ∉ (st ++ "-" ++ en).data := by
  rw [range_segment_data]
  intro hc
  rcases List.mem_append.mp hc with h | h
  · exact (hst.2 ',' h).2.2 rfl
  · rcases List.mem_cons.mp h with hh | h
    · exact absurd hh (by decide)
    · exact (hen.2 ',' h).2.2 rfl

/-- Resolution of a well-formed token under `resolve_commit`. -/
theorem resolve_commit_goodToken {o : Oracle} {t R : String} (orig : String)
    (ht : goodToken t) (hR : o.revParseVerify t = some R) :
    resolve_commit o t orig = .ok R := by
  unfold resolve_commit
  rw [goodToken_pyStrip ht, if_neg ht.1, hR]

/-- Processing a well-formed range segment reduces to the ancestor check
and the path enumeration. -/
theorem processSegment_range_reduce (o : Oracle) (orig : String)
    (sel : List String) {st en A B : String}
    (hst : goodToken st) (hen : goodToken en)
    (hA : o.revParseVerify st = some A) (hB : o.revParseVerify en = some B) :
    processSegment o orig sel (st ++ "-" ++ en) =
      if o.mergeBaseIsAncestor A B then
        match o.revListReverse A B with
        | none => .error .calledProcessError
        | some raw =>
          if raw.filter (fun line => line ≠ "") = [] then
            .error (.selectionParseError (emptyRangeMsg (st ++ "-" ++ en) orig))
          else
            .ok (appendNewCommits sel (raw.filter (fun line => line ≠ "")))
      else
        .error (.selectionParseError (notAncestorMsg (st ++ "-" ++ en) orig)) := by
  unfold processSegment
  rw [range_segment_removeWs hst hen]
  rw [if_neg (range_segment_ne_empty st en)]
  rw [if_pos (range_segment_dash_mem st en)]
  rw [if_neg (fun hne => hne (range_segment_dash_count hst hen))]
  rw [range_segment_splitFirst hst]
  simp only [resolve_commit_goodToken orig hst hA,
    resolve_commit_goodToken orig hen hB]

/-- Parsing a selection that consists of one comma-free segment reduces to
processing that segment from an empty accumulator; if that fails, the
selection fails with the same error. -/
theorem parse_single_segment_error (o : Oracle) {seg : String} {e : PyError}
    (hseg : pyStrip seg = seg) (hne : seg ≠ "") (hnc : ',' ∉ seg.data)
    (hp : processSegment o seg [] seg = .error e) :
    parse_commit_selection o seg = .error e := by
  unfold parse_commit_selection
  rw [hseg, if_neg hne, pySplit_of_no_sep hnc]
  simp only [List.map_cons, List.map_nil, hseg]
  rw [if_neg (by simp [hne])]
  rw [parseLoop, hp]

/-! ## C6 -/

/-- C6: a range segment `start-end` whose two tokens both resolve but where
start is not an ancestor-or-self of end makes the whole resolution fail
with the InvalidRange error "start must be an ancestor of end"; the code
never swaps start and end and never produces a result. -/
theorem range_not_ancestor_fails (o : Oracle) (st en S E : String)
    (hst : goodToken st) (hen : goodToken en)
    (hS : o.revParseVerify st = some S) (hE : o.revParseVerify en = some E)
    (hanc : o.mergeBaseIsAncestor S E = false) :
    parse_commit_selection o (st ++ "-" ++ en) =
      .error (.selectionParseError
        (notAncestorMsg (st ++ "-" ++ en) (st ++ "-" ++ en))) := by
  refine parse_single_segment_error o (range_segment_pyStrip hst hen)
    (range_segment_ne_empty st en) (range_segment_no_comma hst hen) ?_
  rw [processSegment_range_reduce o (st ++ "-" ++ en) [] hst hen hS hE]
  rw [hanc]
  simp

/-- Witness for the C6 theorem: `deadbee` and `cafefee` both resolve under
the scenario oracle, `D` is not an ancestor of `C`, and the range fails
with the ancestor error. -/
theorem range_not_ancestor_fails_witness :
    parse_commit_selection oracleScenario ("deadbee" ++ "-" ++ "cafefee") =
      .error (.selectionParseError
        (notAncestorMsg ("deadbee" ++ "-" ++ "cafefee") ("deadbee" ++ "-" ++ "cafefee"))) :=
  range_not_ancestor_fails oracleScenario "deadbee" "cafefee" "D" "C"
    (by decide) (by decide) (by decide) (by decide) (by decide)

/-! ## C8 -/

/-- C8: a single segment whose token resolves to X is processed exactly
like a range segment whose enumerated path collapses to the one-element
path [X]: both succeed, and both append X to the selection exactly when X
is not already present. -/
theorem single_segment_eq_collapsed_range (o : Oracle) (orig : String)
    (sel : List String) (tok st en X A B : String) (raw : List String)
    (htok : goodToken tok) (hX : o.revParseVerify tok = some X)
    (hst : goodToken st) (hen : goodToken en)
    (hA : o.revParseVerify st = some A) (hB : o.revParseVerify en = some B)
    (hanc : o.mergeBaseIsAncestor A B = true)
    (hraw : o.revListReverse A B = some raw)
    (hfil : raw.filter (fun line => line ≠ "") = [X]) :
    processSegment o orig sel tok = .ok (if X ∈ sel then sel else sel ++ [X]) ∧
    processSegment o orig sel (st ++ "-" ++ en) =
      .ok (if X ∈ sel then sel else sel ++ [X]) := by
  constructor
  · unfold processSegment
    rw [goodToken_removeWs htok]
    rw [if_neg htok.1]
    rw [if_neg (fun hd => (htok.2 '-' hd).2.1 rfl)]
    simp only [resolve_commit_goodToken orig htok hX]
  · rw [processSegment_range_reduce o orig sel hst hen hA hB, hanc, if_pos rfl, hraw]
    show (if raw.filter (fun line => line ≠ "") = [] then
        Except.error (PyError.selectionParseError (emptyRangeMsg (st ++ "-" ++ en) orig))
      else
        Except.ok (appendNewCommits sel (raw.filter (fun line => line ≠ "")))) = _
    rw [hfil]
    rw [if_neg (by simp : ¬ ([X] : List String) = [])]
    simp [appendNewCommits]

/-- Witness for the C8 theorem: the single token `deadbee` and the
degenerate range `deadbee-deadbee` both append `D`. -/
theorem single_segment_eq_collapsed_range_witness :
    processSegment oracleSingleRange "x" ["Z"] "deadbee" =
      .ok (if "D" ∈ ["Z"] then ["Z"] else ["Z"] ++ ["D"]) ∧
    processSegment oracleSingleRange "x" ["Z"] ("deadbee" ++ "-" ++ "deadbee") =
      .ok (if "D" ∈ ["Z"] then ["Z"] else ["Z"] ++ ["D"]) :=
  single_segment_eq_collapsed_range oracleSingleRange "x" ["Z"]
    "deadbee" "deadbee" "deadbee" "D" "D" "D" ["D"]
    (by decide) (by decide) (by decide) (by decide) (by decide) (by decide)
    (by decide) (by decide) (by decide)

/-! ## C10 -/

/-- Appending commits that are all already selected changes nothing. -/
theorem appendNewCommits_of_subset {sel cs : List String}
    (h : ∀ c ∈ cs, c ∈ sel) : appendNewCommits sel cs = sel := by
  induction cs with
  | nil => rfl
  | cons c cs ih =>
    show appendNewCommits (if c ∈ sel then sel else sel ++ [c]) cs = sel
    rw [if_pos (h c (List.mem_cons_self c cs))]
    exact ih (fun x hx => h x (List.mem_cons_of_mem c hx))

/-- C10: a range segment whose enumerated path is non-empty but consists
only of identifiers already selected by earlier segments does not fail:
the empty-range check applies to the oracle's raw path before
deduplication, the segment contributes nothing, and the loop continues
with the next segment as if the segment had not been there. -/
theorem fully_duplicate_range_continues (o : Oracle) (orig : String)
    (sel : List String) (st en A B : String) (raw : List String)
    (hst : goodToken st) (hen : goodToken en)
    (hA : o.revParseVerify st = some A) (hB : o.revParseVerify en = some B)
    (hanc : o.mergeBaseIsAncestor A B = true)
    (hraw : o.revListReverse A B = some raw)
    (hne : raw.filter (fun line => line ≠ "") ≠ [])
    (hdup : ∀ c ∈ raw.filter (fun line => line ≠ ""), c ∈ sel) :
    processSegment o orig sel (st ++ "-" ++ en) = .ok sel ∧
    ∀ rest, parseLoop o orig sel ((st ++ "-" ++ en) :: rest) =
      parseLoop o orig sel rest := by
  have hps : processSegment o orig sel (st ++ "-" ++ en) = .ok sel := by
    rw [processSegment_range_reduce o orig sel hst hen hA hB, hanc, if_pos rfl, hraw]
    show (if raw.filter (fun line => line ≠ "") = [] then
        Except.error (PyError.selectionParseError (emptyRangeMsg (st ++ "-" ++ en) orig))
      else
        Except.ok (appendNewCommits sel (raw.filter (fun line => line ≠ "")))) = _
    rw [if_neg hne, appendNewCommits_of_subset hdup]
  exact ⟨hps, fun rest => by rw [parseLoop, hps]⟩

/-- Witness for the C10 theorem: a range expanding to the already-selected
path `[C, M1, M2, B]` leaves the selection unchanged and the loop moves on. -/
theorem fully_duplicate_range_continues_witness :
    processSegment oracleScenario "x" ["C", "M1", "M2", "B"] ("cafefee" ++ "-" ++ "babe000") =
      .ok ["C", "M1", "M2", "B"] ∧
    ∀ rest, parseLoop oracleScenario "x" ["C", "M1", "M2", "B"]
        (("cafefee" ++ "-" ++ "babe000") :: rest) =
      parseLoop oracleScenario "x" ["C", "M1", "M2", "B"] rest :=
  fully_duplicate_range_continues oracleScenario "x" ["C", "M1", "M2", "B"]
    "cafefee" "babe000" "C" "B" ["C", "M1", "M2", "B"]
    (by decide) (by decide) (by decide) (by decide) (by decide) (by decide)
    (by decide) (by decide)

/-! ## C7 -/

/-- C7: parsing fails, with a `SelectionParseError`, whenever the trimmed
input is empty or any comma-separated segment is empty after trimming
(as in "a,,b"); the empty segment is never silently dropped. -/
theorem empty_input_or_segment_fails (o : Oracle) (s : String)
    (h : pyStrip s = "" ∨ "" ∈ (pySplit ',' (pyStrip s)).map pyStrip) :
    ∃ msg, parse_commit_selection o s = .error (.selectionParseError msg) := by
  unfold parse_commit_selection
  by_cases h1 : pyStrip s = ""
  · exact ⟨emptyInputMsg, by rw [if_pos h1]⟩
  · rcases h with h | h
    · exact absurd h h1
    · have h2 : ((pySplit ',' (pyStrip s)).map pyStrip).any
          (fun segment => segment = "") = true := by
        rw [List.any_eq_true]
        exact ⟨"", h, by simp⟩
      exact ⟨emptySegmentMsg "" s, by rw [if_neg h1, if_pos h2]⟩

/-- Witness for the C7 theorem at the input "a,,b". -/
theorem empty_input_or_segment_fails_witness :
    ∃ msg, parse_commit_selection oracleScenario "a,,b" =
      .error (.selectionParseError msg) :=
  empty_input_or_segment_fails oracleScenario "a,,b" (by decide)

/-! ## Canonicalization lemmas -/

theorem string_data_inj {s t : String} (h : s.data = t.data) : s = t := by
  cases s
  cases t
  exact congrArg String.mk h

theorem string_append_assoc (a b c : String) : a ++ b ++ c = a ++ (b ++ c) :=
  string_data_inj (by simp [String.data_append])

theorem pyJoin_cons_cons (sep a b : String) (t : List String) :
    pyJoin sep (a :: b :: t) = a ++ sep ++ pyJoin sep (b :: t) := rfl

theorem pyTake_eq_self {n : Nat} {s : String} (h : s.data.length ≤ n) :
    pyTake n s = s := by
  unfold pyTake
  rw [List.take_of_length_le h, asString_data]

theorem pyTake_data_length (n : Nat) (s : String) :
    (pyTake n s).data.length = min n s.data.length := by
  unfold pyTake
  rw [data_asString, List.length_take]

/-- The comma-join of equally-long pieces is injective (for lists of the
same length). -/
theorem pyJoin_inj_fixed_length {L : Nat} :
    ∀ {l1 l2 : List String}, (∀ c ∈ l1, c.data.length = L) →
      (∀ c ∈ l2, c.data.length = L) → l1.length = l2.length →
      pyJoin "," l1 = pyJoin "," l2 → l1 = l2
  | [], [], _, _, _, _ => rfl
  | [a], [b], _, _, _, hj => by rw [show a = b from hj]
  | [], b :: t2, _, _, hlen, _ => by simp at hlen
  | a :: t1, [], _, _, hlen, _ => by simp at hlen
  | [a], b :: b2 :: t2, _, _, hlen, _ => by simp at hlen
  | a :: a2 :: t1, [b], _, _, hlen, _ => by simp at hlen
  | a :: a2 :: t1, b :: b2 :: t2, h1, h2, hlen, hj => by
    have hd : a.data ++ ("," ++ pyJoin "," (a2 :: t1)).data =
        b.data ++ ("," ++ pyJoin "," (b2 :: t2)).data := by
      have h' := hj
      rw [pyJoin_cons_cons, string_append_assoc, pyJoin_cons_cons,
        string_append_assoc] at h'
      simpa [String.data_append] using congrArg String.data h' 
    have hlen' : a.data.length = b.data.length := by
      rw [h1 a (List.mem_cons_self a _), h2 b (List.mem_cons_self b _)]
    obtain ⟨hab, hrest⟩ := List.append_inj hd hlen'
    have ha : a = b := string_data_inj hab
    have hrest' : ("," ++ pyJoin "," (a2 :: t1)).data =
        ("," ++ pyJoin "," (b2 :: t2)).data := hrest
    have hj' : pyJoin "," (a2 :: t1) = pyJoin "," (b2 :: t2) := by
      apply string_data_inj
      have := hrest'
      simp only [String.data_append] at this
      exact List.append_cancel_left this
    have ht : a2 :: t1 = b2 :: t2 :=
      pyJoin_inj_fixed_length (fun c hc => h1 c (List.mem_cons_of_mem a hc))
        (fun c hc => h2 c (List.mem_cons_of_mem b hc)) (by simpa using hlen) hj'
    rw [ha, ht]

/-- Equal images under a map with nodup image determine equal lists among
permutations of each other. -/
theorem eq_of_map_eq_of_perm_of_nodup {f : String → String} :
    ∀ {l1 l2 : List String}, l1.Perm l2 → (l1.map f).Nodup →
      l1.map f = l2.map f → l1 = l2
  | [], l2, hperm, _, _ => by
    rw [List.Perm.eq_nil hperm.symm]
  | a :: t1, [], hperm, _, _ => by
    exact absurd (List.Perm.eq_nil hperm) (by simp)
  | a :: t1, b :: t2, hperm, hnodup, hmap => by
    have hfab : f a = f b := by
      simpa using congrArg (fun l => l.headD "") hmap
    have hnd : f a ∉ t1.map f ∧ (t1.map f).Nodup := List.nodup_cons.mp hnodup
    have hab : a = b := by
      by_contra hne
      have hb : b ∈ a :: t1 := hperm.symm.subset (List.mem_cons_self b t2)
      rcases List.mem_cons.mp hb with h | h
      · exact hne h.symm
      · exact hnd.1 (hfab.symm ▸ List.mem_map_of_mem f h)
    subst hab
    have hperm' : t1.Perm t2 := hperm.cons_inv
    have hmap' : t1.map f = t2.map f := by
      simpa using hmap
    rw [eq_of_map_eq_of_perm_of_nodup hperm' hnd.2 hmap']

theorem sha1Hexdigest_data_length (s : String) :
    (sha1Hexdigest s).data.length = 40 := by
  unfold sha1Hexdigest
  rw [data_asString]
  simp [toHex32]

/-- Every selection tag ends in the 8-hex-digit truncated digest of its
canonical-string argument. -/
theorem build_selection_tag_eq_append (sel : List String) (c : String) :
    ∃ P, build_selection_tag sel c = P ++ pyTake 8 (sha1Hexdigest c) := by
  unfold build_selection_tag
  by_cases h : sel = []
  · rw [if_pos h]
    exact ⟨"0commits-", rfl⟩
  · rw [if_neg h]
    exact ⟨_, rfl⟩

theorem append_inj_of_suffix_length {p1 p2 h1 h2 : String}
    (hl : h1.data.length = h2.data.length) (he : p1 ++ h1 = p2 ++ h2) : h1 = h2 := by
  have hd : p1.data ++ h1.data = p2.data ++ h2.data := by
    simpa [String.data_append] using congrArg String.data he
  exact string_data_inj (List.append_inj' hd hl).2

/-- Tags with different truncated digests are different. -/
theorem build_selection_tag_ne_of_hash_ne {sel1 sel2 : List String} {c1 c2 : String}
    (hne : pyTake 8 (sha1Hexdigest c1) ≠ pyTake 8 (sha1Hexdigest c2)) :
    build_selection_tag sel1 c1 ≠ build_selection_tag sel2 c2 := by
  obtain ⟨P1, hP1⟩ := build_selection_tag_eq_append sel1 c1
  obtain ⟨P2, hP2⟩ := build_selection_tag_eq_append sel2 c2
  intro he
  rw [hP1, hP2] at he
  refine hne (append_inj_of_suffix_length ?_ he)
  rw [pyTake_data_length, pyTake_data_length,
    sha1Hexdigest_data_length, sha1Hexdigest_data_length]

/-! ## C3 -/

/-- C3 counterexample: for a selection holding one full-length
(40-character) identifier, the canonical string `main` displays and logs
is not the string it feeds into the tag digest, and the tag computed by
`main` differs from a tag digesting the display-shortened canonical
string. -/
theorem display_string_not_tag_hash_input :
    main_selection_canonical ["0123456789abcdef0123456789abcdef01234567"] ≠
      main_selection_canonical_full ["0123456789abcdef0123456789abcdef01234567"] ∧
    main_selection_tag ["0123456789abcdef0123456789abcdef01234567"] ≠
      build_selection_tag ["0123456789abcdef0123456789abcdef01234567"]
        (main_selection_canonical ["0123456789abcdef0123456789abcdef01234567"]) := by
  constructor
  · decide
  · decide

/-- C3 amended: `main` displays the 8-character-prefix canonical string but
feeds the full-identifier comma-join into the tag digest; the two strings
(and hence the tags) coincide whenever every identifier has at most 8
characters, which full git hashes do not. -/
theorem display_and_hash_input_agree_for_short_ids (commits : List String)
    (h : ∀ c ∈ commits, c.data.length ≤ 8) :
    main_selection_canonical commits = main_selection_canonical_full commits ∧
    main_selection_tag commits =
      build_selection_tag commits (main_selection_canonical commits) := by
  have hmap : commits.map (pyTake 8) = commits := by
    induction commits with
    | nil => rfl
    | cons c cs ih =>
      rw [List.map_cons, pyTake_eq_self (h c (List.mem_cons_self c cs)),
        ih (fun x hx => h x (List.mem_cons_of_mem c hx))]
  have hcan : main_selection_canonical commits = main_selection_canonical_full commits := by
    unfold main_selection_canonical format_commit_selection main_selection_canonical_full
    rw [hmap]
  exact ⟨hcan, by unfold main_selection_tag; rw [hcan]⟩

/-- Witness for the amended C3 theorem at a short-identifier selection. -/
theorem display_and_hash_input_agree_for_short_ids_witness :
    main_selection_canonical ["abc1234", "def5678"] =
      main_selection_canonical_full ["abc1234", "def5678"] ∧
    main_selection_tag ["abc1234", "def5678"] =
      build_selection_tag ["abc1234", "def5678"]
        (main_selection_canonical ["abc1234", "def5678"]) :=
  display_and_hash_input_agree_for_short_ids ["abc1234", "def5678"] (by decide)

/-! ## C9 -/

/-- C9 counterexample: two distinct orderings of the same two-element
identifier set whose 8-character prefixes collide produce the very same
canonical string, so permuting a selection can leave the canonical string
unchanged. -/
theorem permuted_selection_same_canonical_string :
    (["00000000aaaaaaaaaaaaaaaaaaaaaaaaaaaaaaaa",
      "00000000bbbbbbbbbbbbbbbbbbbbbbbbbbbbbbbb"] : List String).Perm
      ["00000000bbbbbbbbbbbbbbbbbbbbbbbbbbbbbbbb",
       "00000000aaaaaaaaaaaaaaaaaaaaaaaaaaaaaaaa"] ∧
    (["00000000aaaaaaaaaaaaaaaaaaaaaaaaaaaaaaaa",
      "00000000bbbbbbbbbbbbbbbbbbbbbbbbbbbbbbbb"] : List String) ≠
      ["00000000bbbbbbbbbbbbbbbbbbbbbbbbbbbbbbbb",
       "00000000aaaaaaaaaaaaaaaaaaaaaaaaaaaaaaaa"] ∧
    format_commit_selection
        ["00000000aaaaaaaaaaaaaaaaaaaaaaaaaaaaaaaa",
         "00000000bbbbbbbbbbbbbbbbbbbbbbbbbbbbbbbb"] =
      format_commit_selection
        ["00000000bbbbbbbbbbbbbbbbbbbbbbbbbbbbbbbb",
         "00000000aaaaaaaaaaaaaaaaaaaaaaaaaaaaaaaa"] :=
  ⟨List.Perm.swap _ _ _, by decide, by decide⟩

/-- C9 amended: for two distinct orderings of the same identifier set, if
the identifiers are full-length (40 characters) and their 8-character
prefixes are pairwise distinct, then `format_commit_selection` produces
different canonical strings, the full-join tag-hash inputs used by `main`
differ, and the tags differ whenever the truncated digests of those inputs
differ. -/
theorem permuted_selection_distinct_canonical (l1 l2 : List String)
    (hperm : l1.Perm l2) (hne : l1 ≠ l2)
    (hnodup : (l1.map (pyTake 8)).Nodup)
    (hlen : ∀ c ∈ l1, c.data.length = 40) :
    format_commit_selection l1 ≠ format_commit_selection l2 ∧
    main_selection_canonical_full l1 ≠ main_selection_canonical_full l2 ∧
    (pyTake 8 (sha1Hexdigest (main_selection_canonical_full l1)) ≠
        pyTake 8 (sha1Hexdigest (main_selection_canonical_full l2)) →
      main_selection_tag l1 ≠ main_selection_tag l2) := by
  have hlen2 : ∀ c ∈ l2, c.data.length = 40 :=
    fun c hc => hlen c (hperm.mem_iff.mpr hc)
  refine ⟨?_, ?_, ?_⟩
  · intro he
    apply hne
    unfold format_commit_selection at he
    have hp1 : ∀ p ∈ l1.map (pyTake 8), p.data.length = 8 := by
      intro p hp
      obtain ⟨c, hc, rfl⟩ := List.mem_map.mp hp
      rw [pyTake_data_length, hlen c hc]
      decide
    have hp2 : ∀ p ∈ l2.map (pyTake 8), p.data.length = 8 := by
      intro p hp
      obtain ⟨c, hc, rfl⟩ := List.mem_map.mp hp
      rw [pyTake_data_length, hlen2 c hc]
      decide
    have hlen12 : (l1.map (pyTake 8)).length = (l2.map (pyTake 8)).length := by
      simp [hperm.length_eq]
    exact eq_of_map_eq_of_perm_of_nodup hperm hnodup
      (pyJoin_inj_fixed_length hp1 hp2 hlen12 he)
  · intro he
    apply hne
    unfold main_selection_canonical_full at he
    exact pyJoin_inj_fixed_length hlen hlen2 hperm.length_eq he
  · intro hdig
    unfold main_selection_tag
    exact build_selection_tag_ne_of_hash_ne hdig

/-- Witness for the amended C9 theorem on two full-length identifiers with
distinct prefixes. -/
theorem permuted_selection_distinct_canonical_witness :
    format_commit_selection
        ["aaaaaaaaaaaaaaaaaaaaaaaaaaaaaaaaaaaaaaaa",
         "bbbbbbbbbbbbbbbbbbbbbbbbbbbbbbbbbbbbbbbb"] ≠
      format_commit_selection
        ["bbbbbbbbbbbbbbbbbbbbbbbbbbbbbbbbbbbbbbbb",
         "aaaaaaaaaaaaaaaaaaaaaaaaaaaaaaaaaaaaaaaa"] ∧
    main_selection_canonical_full
        ["aaaaaaaaaaaaaaaaaaaaaaaaaaaaaaaaaaaaaaaa",
         "bbbbbbbbbbbbbbbbbbbbbbbbbbbbbbbbbbbbbbbb"] ≠
      main_selection_canonical_full
        ["bbbbbbbbbbbbbbbbbbbbbbbbbbbbbbbbbbbbbbbb",
         "aaaaaaaaaaaaaaaaaaaaaaaaaaaaaaaaaaaaaaaa"] ∧
    (pyTake 8 (sha1Hexdigest (main_selection_canonical_full
          ["aaaaaaaaaaaaaaaaaaaaaaaaaaaaaaaaaaaaaaaa",
           "bbbbbbbbbbbbbbbbbbbbbbbbbbbbbbbbbbbbbbbb"])) ≠
        pyTake 8 (sha1Hexdigest (main_selection_canonical_full
          ["bbbbbbbbbbbbbbbbbbbbbbbbbbbbbbbbbbbbbbbb",
           "aaaaaaaaaaaaaaaaaaaaaaaaaaaaaaaaaaaaaaaa"])) →
      main_selection_tag
          ["aaaaaaaaaaaaaaaaaaaaaaaaaaaaaaaaaaaaaaaa",
           "bbbbbbbbbbbbbbbbbbbbbbbbbbbbbbbbbbbbbbbb"] ≠
        main_selection_tag
          ["bbbbbbbbbbbbbbbbbbbbbbbbbbbbbbbbbbbbbbbb",
           "aaaaaaaaaaaaaaaaaaaaaaaaaaaaaaaaaaaaaaaa"]) :=
  permuted_selection_distinct_canonical
    ["aaaaaaaaaaaaaaaaaaaaaaaaaaaaaaaaaaaaaaaa",
     "bbbbbbbbbbbbbbbbbbbbbbbbbbbbbbbbbbbbbbbb"]
    ["bbbbbbbbbbbbbbbbbbbbbbbbbbbbbbbbbbbbbbbb",
     "aaaaaaaaaaaaaaaaaaaaaaaaaaaaaaaaaaaaaaaa"]
    (List.Perm.swap _ _ _) (by decide) (by decide) (by decide)
